import Mathlib

set_option maxRecDepth 100000

/-!
Shallow embedding of the FRBSF Economic Letters application core
(`src/database.py` and `src/main.py`): the cache-aside storage layer
(letters, insights, cache metadata), the question fingerprint
(MD5 of the lower-cased, stripped question), and the scrape orchestrator.

Time is modelled as a natural number `now` passed explicitly to every
operation that calls `datetime.utcnow()`; one call uses a single `now`.
The SQLAlchemy session discipline is modelled by computing the whole
pending state and committing it atomically: an exception anywhere in the
`try` block (modelled by a Boolean error flag) triggers `rollback`, so
the durable state is returned unchanged and the operation reports `false`.
-/

/-- Replaces the first element satisfying `p` by `f` of it, leaving the rest
unchanged; models SQLAlchemy's pattern of `query(...).filter(...).first()`
followed by in-place mutation of the returned row. -/
def updateFirst (p : α → Bool) (f : α → α) : List α → List α
  | [] => []
  | x :: xs => if p x then f x :: xs else x :: updateFirst p f xs

/-! ### MD5 (the digest used by `DatabaseManager._hash_question` via `hashlib.md5`) -/

/-- Word size for MD5 arithmetic: all additions are modulo 2^32. -/
def w32 : Nat := 4294967296

/-- Left rotation of a 32-bit word (input assumed < 2^32). -/
def rotl32 (x n : Nat) : Nat := ((x <<< n) + (x >>> (32 - n))) % w32

/-- Bitwise complement within 32 bits. -/
def not32 (x : Nat) : Nat := x ^^^ 4294967295

/-- The 64 MD5 sine-derived constants K. -/
def md5K : List Nat :=
  [3614090360, 3905402710, 606105819, 3250441966, 4118548399, 1200080426, 2821735955, 4249261313,
   1770035416, 2336552879, 4294925233, 2304563134, 1804603682, 4254626195, 2792965006, 1236535329,
   4129170786, 3225465664, 643717713, 3921069994, 3593408605, 38016083, 3634488961, 3889429448,
   568446438, 3275163606, 4107603335, 1163531501, 2850285829, 4243563512, 1735328473, 2368359562,
   4294588738, 2272392833, 1839030562, 4259657740, 2763975236, 1272893353, 4139469664, 3200236656,
   681279174, 3936430074, 3572445317, 76029189, 3654602809, 3873151461, 530742520, 3299628645,
   4096336452, 1126891415, 2878612391, 4237533241, 1700485571, 2399980690, 4293915773, 2240044497,
   1873313359, 4264355552, 2734768916, 1309151649, 4149444226, 3174756917, 718787259, 3951481745]

/-- The 64 MD5 per-round left-rotation amounts. -/
def md5S : List Nat :=
  [7, 12, 17, 22, 7, 12, 17, 22, 7, 12, 17, 22, 7, 12, 17, 22,
   5, 9, 14, 20, 5, 9, 14, 20, 5, 9, 14, 20, 5, 9, 14, 20,
   4, 11, 16, 23, 4, 11, 16, 23, 4, 11, 16, 23, 4, 11, 16, 23,
   6, 10, 15, 21, 6, 10, 15, 21, 6, 10, 15, 21, 6, 10, 15, 21]

/-- Little-endian 32-bit word `j` of a 64-byte chunk. -/
def chunkWord (chunk : List Nat) (j : Nat) : Nat :=
  chunk.getD (4 * j) 0 + 256 * chunk.getD (4 * j + 1) 0 +
    65536 * chunk.getD (4 * j + 2) 0 + 16777216 * chunk.getD (4 * j + 3) 0

/-- One MD5 round: state `(a, b, c, d)`, round index `i`, message chunk. -/
def md5Round (chunk : List Nat) (st : Nat × Nat × Nat × Nat) (i : Nat) :
    Nat × Nat × Nat × Nat :=
  let a := st.1
  let b := st.2.1
  let c := st.2.2.1
  let d := st.2.2.2
  let fg : Nat × Nat :=
    if i < 16 then ((b &&& c) ||| (not32 b &&& d), i)
    else if i < 32 then ((d &&& b) ||| (not32 d &&& c), (5 * i + 1) % 16)
    else if i < 48 then (b ^^^ c ^^^ d, (3 * i + 5) % 16)
    else (c ^^^ (b ||| not32 d), (7 * i) % 16)
  let f := (fg.1 + a + md5K.getD i 0 + chunkWord chunk fg.2) % w32
  (d, (b + rotl32 f (md5S.getD i 0)) % w32, b, c)

/-- Process one 64-byte chunk: run the 64 rounds and add the result into
the running state, modulo 2^32 per word. -/
def md5Chunk (st : Nat × Nat × Nat × Nat) (chunk : List Nat) :
    Nat × Nat × Nat × Nat :=
  let r := (List.range 64).foldl (md5Round chunk) st
  ((st.1 + r.1) % w32, (st.2.1 + r.2.1) % w32,
   (st.2.2.1 + r.2.2.1) % w32, (st.2.2.2 + r.2.2.2) % w32)

/-- Fuel-bounded 64-byte chunking; each step consumes at least one byte, so
fuel equal to the list length always suffices. -/
def chunks64Go : Nat → List Nat → List (List Nat)
  | 0, _ => []
  | _ + 1, [] => []
  | n + 1, x :: xs => (x :: xs).take 64 :: chunks64Go n ((x :: xs).drop 64)

/-- Splits a byte list into 64-byte chunks (the last may be shorter, but the
MD5 padding always makes the total length a multiple of 64). -/
def chunks64 (l : List Nat) : List (List Nat) := chunks64Go l.length l

/-- MD5 padding: append `0x80`, zero bytes to reach 56 mod 64, then the
original bit length as a 64-bit little-endian quantity. -/
def md5Pad (msg : List Nat) : List Nat :=
  let L := msg.length
  let z := (56 + 64 - (L + 1) % 64) % 64
  msg ++ [128] ++ List.replicate z 0 ++
    (List.range 8).map (fun i => ((8 * L) >>> (8 * i)) % 256)

/-- Final MD5 state for a byte message. -/
def md5Final (msg : List Nat) : Nat × Nat × Nat × Nat :=
  (chunks64 (md5Pad msg)).foldl md5Chunk (1732584193, 4023233417, 2562383102, 271733878)

/-- Serializes a 32-bit word to four little-endian bytes. -/
def wordLE (w : Nat) : List Nat :=
  [w % 256, (w >>> 8) % 256, (w >>> 16) % 256, (w >>> 24) % 256]

/-- The 16-byte MD5 digest of a byte message. -/
def md5Digest (msg : List Nat) : List Nat :=
  wordLE (md5Final msg).1 ++ wordLE (md5Final msg).2.1 ++
    wordLE (md5Final msg).2.2.1 ++ wordLE (md5Final msg).2.2.2

/-- Lower-case hexadecimal digit character, as produced by `hexdigest()`. -/
def hexChar (n : Nat) : Char := if n < 10 then Char.ofNat (48 + n) else Char.ofNat (87 + n)

/-- Two hex characters for one byte. -/
def byteHex (b : Nat) : List Char := [hexChar (b / 16 % 16), hexChar (b % 16)]

/-- The 32-character lower-case hex digest string, `hashlib.md5(...).hexdigest()`. -/
def md5Hexdigest (msg : List Nat) : String :=
  String.mk ((md5Digest msg).map byteHex).flatten

/-! ### Question normalization (`question.lower().strip().encode()`) -/

/-- Python `str.lower()`, modelled per-character. -/
def pyLower (s : String) : String := String.mk (s.data.map Char.toLower)

/-- Python whitespace recognized by `str.strip()` (ASCII subset). -/
def isPyWs (c : Char) : Bool :=
  c == ' ' || c == '\t' || c == '\n' || c == '\x0d' || c == '\x0b' || c == '\x0c'

/-- Python `str.strip()`: removes leading and trailing whitespace. -/
def pyStrip (s : String) : String :=
  String.mk (((s.data.dropWhile isPyWs).reverse.dropWhile isPyWs).reverse)

/-- UTF-8 encoding of one character, as `str.encode()` produces. -/
def utf8Char (c : Char) : List Nat :=
  let n := c.toNat
  if n < 128 then [n]
  else if n < 2048 then [192 + n / 64, 128 + n % 64]
  else if n < 65536 then [224 + n / 4096, 128 + n / 64 % 64, 128 + n % 64]
  else [240 + n / 262144, 128 + n / 4096 % 64, 128 + n / 64 % 64, 128 + n % 64]

/-- UTF-8 byte encoding of a string (`str.encode()`). -/
def strBytes (s : String) : List Nat := (s.data.map utf8Char).flatten

/-- The normalization applied by `_hash_question` before digesting:
`question.lower().strip()`. -/
def normalizeQuestion (q : String) : String := pyStrip (pyLower q)

/-- The question fingerprint, `DatabaseManager._hash_question`:
`hashlib.md5(question.lower().strip().encode()).hexdigest()`. -/
def hash_question (q : String) : String := md5Hexdigest (strBytes (normalizeQuestion q))

/-! ### Data model (`database.py` tables) -/

/-- One row of the `economic_letters` table (`EconomicLetter`). -/
structure Letter where
  id : Nat
  url : String
  title : String
  date : String
  content : String
  summary : String
  scraped_at : Nat
  updated_at : Nat
deriving Repr, DecidableEq

/-- One row of the `insights` table (`Insight`). -/
structure InsightRow where
  id : Nat
  letter_url : String
  question : String
  question_hash : String
  insight : String
  created_at : Nat
deriving Repr, DecidableEq

/-- One row of the `cache_metadata` table (`CacheMetadata`). -/
structure CacheEntry where
  id : Nat
  cache_key : String
  cache_type : String
  last_updated : Nat
  expires_at : Nat
  is_valid : Bool
  extra_data : String
deriving Repr, DecidableEq

/-- The durable SQLite database state: the three tables, in rowid
(insertion) order, plus autoincrement counters for primary keys. -/
structure DBState where
  letters : List Letter
  insights : List InsightRow
  cache : List CacheEntry
  nextLetterId : Nat
  nextInsightId : Nat
  nextCacheId : Nat
deriving Repr, DecidableEq

/-- The empty, freshly initialized database. -/
def emptyDB : DBState :=
  { letters := [], insights := [], cache := [],
    nextLetterId := 1, nextInsightId := 1, nextCacheId := 1 }

/-- The letter payload dictionary shape used by `store_letters` input and
`get_letters_from_cache` output. -/
structure LetterData where
  title : String
  url : String
  date : String
  summary : String
  content : String
deriving Repr, DecidableEq

/-- Projection of a stored letter row to the output dictionary built by
`get_letters_from_cache`. -/
def letterToData (l : Letter) : LetterData :=
  { title := l.title, url := l.url, date := l.date,
    summary := l.summary, content := l.content }

/-- The cache TTL constant `CACHE_EXPIRY_HOURS = 24`, in seconds. -/
def CACHE_EXPIRY_SECONDS : Nat := 24 * 3600

/-! ### Database operations (`DatabaseManager`) -/

/-- The filter used by the read paths on `cache_metadata`: key matches,
`expires_at > utcnow()`, `is_valid == True` (source order). -/
def cacheFilter (key : String) (now : Nat) (e : CacheEntry) : Bool :=
  e.cache_key == key && decide (now < e.expires_at) && e.is_valid

/-- The spec's usability predicate on a cache entry:
validity flag true and current time strictly before expiry. -/
def usableEntry (e : CacheEntry) (now : Nat) : Prop :=
  e.is_valid = true ∧ now < e.expires_at

instance (e : CacheEntry) (now : Nat) : Decidable (usableEntry e now) := by
  unfold usableEntry; infer_instance

/-- Descending order on `scraped_at` used by the letters query
(`order_by(EconomicLetter.scraped_at.desc())`). -/
def scrapedDesc (a b : Letter) : Prop := b.scraped_at ≤ a.scraped_at

instance : DecidableRel scrapedDesc := by
  unfold scrapedDesc; infer_instance

/-- `DatabaseManager.get_letters_from_cache(limit, offset)`: returns
`([], False)` unless a usable `letters_list` cache entry exists; otherwise
pages the letters ordered by `scraped_at` descending and reports
`has_more = offset + limit < total_count`. -/
def get_letters_from_cache (now limit offset : Nat) (s : DBState) :
    List LetterData × Bool :=
  match s.cache.find? (cacheFilter "letters_list" now) with
  | none => ([], false)
  | some _ =>
    let sorted := s.letters.insertionSort scrapedDesc
    let total := sorted.length
    (((sorted.drop offset).take limit).map letterToData,
     decide (offset + limit < total))

/-- The field overwrite applied when `store_letters` finds an existing row
with the same URL: all payload fields replaced, `updated_at` bumped,
`id` and `scraped_at` kept. -/
def letterUpdate (now : Nat) (d : LetterData) (l : Letter) : Letter :=
  { l with title := d.title, date := d.date, content := d.content,
           summary := d.summary, updated_at := now }

/-- The new row inserted by `store_letters` when no URL match exists
(`scraped_at`/`updated_at` default to the insertion time). -/
def letterInsert (now : Nat) (rowId : Nat) (d : LetterData) : Letter :=
  { id := rowId, url := d.url, title := d.title, date := d.date,
    content := d.content, summary := d.summary,
    scraped_at := now, updated_at := now }

/-- The per-item upsert inside `store_letters`: update the first row whose
`url` matches, or insert a new row. -/
def upsertLetter (now : Nat) (s : DBState) (d : LetterData) : DBState :=
  if s.letters.any (fun l => l.url == d.url) then
    { s with letters := updateFirst (fun l => l.url == d.url)
               (letterUpdate now d) s.letters }
  else
    { s with letters := s.letters ++ [letterInsert now s.nextLetterId d],
             nextLetterId := s.nextLetterId + 1 }

/-- The refresh applied to an existing `letters_list` cache entry:
`last_updated` bumped, expiry pushed out by the TTL, validity restored. -/
def cacheUpdate (now : Nat) (e : CacheEntry) : CacheEntry :=
  { e with last_updated := now, expires_at := now + CACHE_EXPIRY_SECONDS,
           is_valid := true }

/-- The cache-metadata refresh at the end of `store_letters`: update the
`letters_list` entry (bump `last_updated`, set new expiry, revalidate) or
create it. -/
def refreshLettersCache (now : Nat) (count : Nat) (s : DBState) : DBState :=
  if s.cache.any (fun e => e.cache_key == "letters_list") then
    { s with cache := updateFirst (fun e => e.cache_key == "letters_list")
               (cacheUpdate now) s.cache }
  else
    { s with
      cache := s.cache ++
        [{ id := s.nextCacheId, cache_key := "letters_list",
           cache_type := "letters_list", last_updated := now,
           expires_at := now + CACHE_EXPIRY_SECONDS, is_valid := true,
           extra_data := "\x7b\"count\": " ++ toString count ++ "\x7d" }],
      nextCacheId := s.nextCacheId + 1 }

/-- The full pending session state built by the `try` block of
`store_letters`: each payload upserted in order, then the cache entry
refreshed. -/
def storeLettersPending (now : Nat) (data : List LetterData) (s : DBState) : DBState :=
  refreshLettersCache now data.length (data.foldl (upsertLetter now) s)

/-- `DatabaseManager.store_letters`: the session's writes become durable
only at `db.commit()`; `exn = true` models an exception anywhere in the
`try` block (constraint violation, I/O error), on which `db.rollback()`
discards the session and the durable state is unchanged, returning
`False`. On success returns `True`. -/
def store_letters (now : Nat) (data : List LetterData) (exn : Bool)
    (s : DBState) : DBState × Bool :=
  if exn then (s, false) else (storeLettersPending now data s, true)

/-- `DatabaseManager.is_cache_valid(cache_key)`. -/
def is_cache_valid (key : String) (now : Nat) (s : DBState) : Bool :=
  (s.cache.find? (cacheFilter key now)).isSome

/-- The row filter used by both insight operations: match on
`(letter_url, question_hash)`. -/
def insightKey (u qh : String) (i : InsightRow) : Bool :=
  i.letter_url == u && i.question_hash == qh

/-- `DatabaseManager.get_cached_insight(letter_url, question)`: looks up by
`(letter_url, question_hash)`; note it applies no expiry or validity
check and takes no current time. -/
def get_cached_insight (letter_url question : String) (s : DBState) :
    Option String :=
  (s.insights.find? (insightKey letter_url (hash_question question))).map
    (fun i => i.insight)

/-- The field overwrite applied when `store_insight` finds an existing row
for the pair: answer text replaced and `created_at` reset to now. -/
def insightUpdate (now : Nat) (insight_text : String) (i : InsightRow) : InsightRow :=
  { i with insight := insight_text, created_at := now }

/-- The pending session state of `store_insight`: overwrite the first row
matching the `(letter_url, question_hash)` pair, or insert a new row. -/
def storeInsightPending (now : Nat) (letter_url question insight_text : String)
    (s : DBState) : DBState :=
  let qh := hash_question question
  if s.insights.any (insightKey letter_url qh) then
    { s with insights := updateFirst (insightKey letter_url qh)
               (insightUpdate now insight_text) s.insights }
  else
    { s with
      insights := s.insights ++
        [{ id := s.nextInsightId, letter_url := letter_url,
           question := question, question_hash := qh,
           insight := insight_text, created_at := now }],
      nextInsightId := s.nextInsightId + 1 }

/-- `DatabaseManager.store_insight`: same commit/rollback discipline as
`store_letters`. -/
def store_insight (now : Nat) (letter_url question insight_text : String)
    (exn : Bool) (s : DBState) : DBState × Bool :=
  if exn then (s, false)
  else (storeInsightPending now letter_url question insight_text s, true)

/-- Descending order on `created_at` used by the history query
(`order_by(Insight.created_at.desc())`). -/
def createdDesc (a b : InsightRow) : Prop := b.created_at ≤ a.created_at

instance : DecidableRel createdDesc := by
  unfold createdDesc; infer_instance

/-- `DatabaseManager.get_question_history(letter_url)`: the stored rows for
the letter, newest `created_at` first. -/
def get_question_history (letter_url : String) (s : DBState) : List InsightRow :=
  (s.insights.filter (fun i => i.letter_url == letter_url)).insertionSort createdDesc

/-- Python truthiness of the optional `cache_type` argument of
`clear_cache`: `None` and the empty string both mean "no filter". -/
def cacheTypeTruthy (ct : Option String) : Bool :=
  match ct with
  | none => false
  | some t => t != ""

/-- The per-entry effect of `clear_cache`: invalidate the entry, except
that entries of another category are left alone when a truthy category
filter is given. -/
def clearEntry (ct : Option String) (e : CacheEntry) : CacheEntry :=
  if cacheTypeTruthy ct then
    (if e.cache_type == ct.getD "" then { e with is_valid := false } else e)
  else { e with is_valid := false }

/-- `DatabaseManager.clear_cache(cache_type)`: sets `is_valid = False` on
every cache entry, restricted to those whose `cache_type` matches when a
truthy category is given; letters and insights rows are untouched. -/
def clear_cache (ct : Option String) (s : DBState) : DBState :=
  { s with cache := s.cache.map (clearEntry ct) }

/-- The record returned by `DatabaseManager.get_cache_stats`. -/
structure CacheStats where
  total_letters : Nat
  total_insights : Nat
  valid_caches : Nat
  database_size : String
deriving Repr, DecidableEq

/-- `DatabaseManager.get_cache_stats`: row counts plus the number of cache
entries that are valid and unexpired. -/
def get_cache_stats (now : Nat) (s : DBState) : CacheStats :=
  { total_letters := s.letters.length,
    total_insights := s.insights.length,
    valid_caches := (s.cache.filter (fun e =>
      e.is_valid && decide (now < e.expires_at))).length,
    database_size := "N/A" }

/-! ### Scrape orchestrator (`main.py`, `scrape_economic_letters`) -/

/-- The FRBSF base URL used to absolutize relative hrefs. -/
def baseUrl : String := "https://www.frbsf.org"

/-- Checks whether the list of characters starts with `/`, four decimal
digits, then `/`, and returns the four digits if so: one attempted match
of Python's `re.search(r'/(\x5cd\x7b4\x7d)/', url)` at the current position. -/
def yearAt : List Char → Option String
  | '/' :: a :: b :: c :: d :: '/' :: _ =>
    if a.isDigit && b.isDigit && c.isDigit && d.isDigit then
      some (String.mk [a, b, c, d])
    else none
  | _ => none

/-- Left-to-right scan for the first `/dddd/` match, as `re.search` does. -/
def findYear : List Char → Option String
  | [] => none
  | x :: xs =>
    match yearAt (x :: xs) with
    | some y => some y
    | none => findYear xs

/-- The date extraction in the scrape loop: the first `/dddd/` group of the
letter URL, or `"Unknown"`. -/
def extractDate (url : String) : String := (findYear url.data).getD "Unknown"

/-- The external collaborators of `scrape_economic_letters`, as an oracle:
whether the index-page request (and parse) succeeds, the `(href, text)`
pairs of the article links BeautifulSoup finds, and the text
`scrape_letter_content` returns per URL (that helper catches its own
exceptions and always returns a string, per `main.py`). -/
structure ScrapeOracle where
  pageOk : Bool
  links : List (String × String)
  content : String → String

/-- The summary truncation: first 500 characters plus `"..."` when the
content is longer than 500 characters. -/
def summarize (content : String) : String :=
  if 500 < content.length then content.take 500 ++ "..." else content

/-- The letter-building loop of `scrape_economic_letters`: over the first
`maxN` article links, absolutize the href, keep the item only when both
title and URL are truthy (non-empty), extract the date, and fetch the
content. -/
def buildLetters (o : ScrapeOracle) (maxN : Nat) : List LetterData :=
  (o.links.take maxN).filterMap (fun lk =>
    let letter_url := if lk.1.startsWith "/" then baseUrl ++ lk.1 else lk.1
    let title := lk.2
    if title != "" && letter_url != "" then
      let content := o.content letter_url
      some { title := title, url := letter_url, date := extractDate letter_url,
             summary := summarize content, content := content }
    else none)

/-- `scrape_economic_letters(limit)`: serve from cache when
`get_letters_from_cache` returns letters; otherwise, if the index page
loads, build up to `max(limit, 20)` letters, store them all (when any)
via `store_letters`, and return the first `limit`; if the index request
raises, fall back to a second `get_letters_from_cache` call and return
its letters (empty when it misses). Returns the response together with
the resulting durable state. -/
def scrape_economic_letters (o : ScrapeOracle) (storeExn : Bool) (now limit : Nat)
    (s : DBState) : List LetterData × DBState :=
  let cached := (get_letters_from_cache now limit 0 s).1
  if cached != [] then (cached, s)
  else if o.pageOk then
    let letters := buildLetters o (max limit 20)
    let s1 := if letters != [] then (store_letters now letters storeExn s).1 else s
    (letters.take limit, s1)
  else
    ((get_letters_from_cache now limit 0 s).1, s)

/-! ### Helper lemmas about `updateFirst` and the upserts -/

/-- When `f` does not change whether `p` holds, `find?` on the updated list
is `f` of the original `find?` result. -/
theorem find?_updateFirst {p : α → Bool} {f : α → α}
    (hf : ∀ x, p (f x) = p x) :
    ∀ l : List α, List.find? p (updateFirst p f l) = (List.find? p l).map f := by
  intro l
  induction l with
  | nil => rfl
  | cons x xs ih =>
    by_cases hx : p x = true
    · simp [updateFirst, hx, List.find?_cons, hf]
    · simp only [Bool.not_eq_true] at hx
      simp [updateFirst, hx, List.find?_cons, ih]

/-- When `f` does not change whether `p` holds, `updateFirst` preserves the
count of `p`-satisfying elements. -/
theorem countP_updateFirst {p : α → Bool} {f : α → α}
    (hf : ∀ x, p (f x) = p x) :
    ∀ l : List α, List.countP p (updateFirst p f l) = List.countP p l := by
  intro l
  induction l with
  | nil => rfl
  | cons x xs ih =>
    by_cases hx : p x = true
    · simp [updateFirst, hx, List.countP_cons, hf]
    · simp only [Bool.not_eq_true] at hx
      simp [updateFirst, hx, List.countP_cons, ih]

/-- When `f` preserves a projection `g`, every element of the original list
has an `updateFirst`-image element with the same projection. -/
theorem exists_mem_updateFirst {p : α → Bool} {f : α → α} (g : α → γ)
    (hf : ∀ x, g (f x) = g x) :
    ∀ l : List α, ∀ r ∈ l, ∃ rr ∈ updateFirst p f l, g rr = g r := by
  intro l
  induction l with
  | nil => intro r hr; cases hr
  | cons x xs ih =>
    intro r hr
    by_cases hx : p x = true
    · rcases List.mem_cons.mp hr with h | h
      · exact ⟨f x, by simp [updateFirst, hx], by rw [hf, h]⟩
      · exact ⟨r, by simp [updateFirst, hx, h], rfl⟩
    · simp only [Bool.not_eq_true] at hx
      rcases List.mem_cons.mp hr with h | h
      · exact ⟨x, by simp [updateFirst, hx], by rw [h]⟩
      · rcases ih r h with ⟨rr, hm, hg⟩
        exact ⟨rr, by simp only [updateFirst, hx]; exact List.mem_cons_of_mem x hm, hg⟩

/-- The letters table after an upsert that found a URL match. -/
theorem upsertLetter_letters_pos (now : Nat) (s : DBState) (d : LetterData)
    (hany : s.letters.any (fun l => l.url == d.url) = true) :
    (upsertLetter now s d).letters
      = updateFirst (fun l => l.url == d.url) (letterUpdate now d) s.letters := by
  simp [upsertLetter, hany]

/-- The letters table after an upsert that found no URL match. -/
theorem upsertLetter_letters_neg (now : Nat) (s : DBState) (d : LetterData)
    (hany : s.letters.any (fun l => l.url == d.url) = false) :
    (upsertLetter now s d).letters = s.letters ++ [letterInsert now s.nextLetterId d] := by
  simp [upsertLetter, hany]

/-- The cache-metadata refresh never touches the letters table. -/
theorem refreshLettersCache_letters (now count : Nat) (s : DBState) :
    (refreshLettersCache now count s).letters = s.letters := by
  unfold refreshLettersCache
  split <;> rfl

/-- Counting letters with a given URL after one upsert: one if there were
none, otherwise unchanged. -/
theorem countP_upsertLetter (now : Nat) (s : DBState) (d : LetterData) :
    (upsertLetter now s d).letters.countP (fun l => l.url == d.url)
      = if s.letters.countP (fun l => l.url == d.url) = 0 then 1
        else s.letters.countP (fun l => l.url == d.url) := by
  by_cases hany : s.letters.any (fun l => l.url == d.url) = true
  · have hpos : 0 < s.letters.countP (fun l => l.url == d.url) :=
      List.countP_pos.mpr (List.any_eq_true.mp hany)
    rw [upsertLetter_letters_pos now s d hany,
        countP_updateFirst (p := fun l => l.url == d.url)
          (f := letterUpdate now d) (fun x => rfl),
        if_neg (by omega)]
  · simp only [Bool.not_eq_true] at hany
    have hz : s.letters.countP (fun l => l.url == d.url) = 0 := by
      rw [List.countP_eq_zero]
      intro a ha hpa
      have : s.letters.any (fun l => l.url == d.url) = true :=
        List.any_eq_true.mpr ⟨a, ha, hpa⟩
      exact absurd this (by simp [hany])
    rw [upsertLetter_letters_neg now s d hany, List.countP_append, hz,
        if_pos rfl]
    simp [letterInsert]

/-- After an upsert, some stored letter has the upserted URL. -/
theorem upsertLetter_mem_self (now : Nat) (s : DBState) (d : LetterData) :
    ∃ r ∈ (upsertLetter now s d).letters, r.url = d.url := by
  by_cases hany : s.letters.any (fun l => l.url == d.url) = true
  · rcases List.any_eq_true.mp hany with ⟨x, hx, hpx⟩
    have hsome : (List.find? (fun l => l.url == d.url) s.letters).isSome = true :=
      List.find?_isSome.mpr ⟨x, hx, hpx⟩
    rcases Option.isSome_iff_exists.mp hsome with ⟨y, hy⟩
    have hfind := find?_updateFirst (p := fun l => l.url == d.url)
      (f := letterUpdate now d) (fun x => rfl) s.letters
    rw [hy, Option.map_some'] at hfind
    rw [upsertLetter_letters_pos now s d hany]
    refine ⟨letterUpdate now d y, List.mem_of_find?_eq_some hfind, ?_⟩
    have hyp := List.find?_some hy
    exact beq_iff_eq.mp hyp
  · simp only [Bool.not_eq_true] at hany
    rw [upsertLetter_letters_neg now s d hany]
    exact ⟨letterInsert now s.nextLetterId d, by simp, rfl⟩

/-- An upsert preserves the presence of any URL already stored. -/
theorem upsertLetter_mem_mono (now : Nat) (s : DBState) (d : LetterData)
    (u : String) (h : ∃ r ∈ s.letters, r.url = u) :
    ∃ r ∈ (upsertLetter now s d).letters, r.url = u := by
  rcases h with ⟨r, hr, hru⟩
  by_cases hany : s.letters.any (fun l => l.url == d.url) = true
  · rw [upsertLetter_letters_pos now s d hany]
    rcases exists_mem_updateFirst (p := fun l => l.url == d.url)
      (f := letterUpdate now d) (fun l => l.url) (fun x => rfl)
      s.letters r hr with ⟨rr, hm, hg⟩
    exact ⟨rr, hm, hg.trans hru⟩
  · simp only [Bool.not_eq_true] at hany
    rw [upsertLetter_letters_neg now s d hany]
    exact ⟨r, List.mem_append_left _ hr, hru⟩

/-- Folding upserts preserves the presence of any URL already stored. -/
theorem foldl_upsert_mono (now : Nat) (u : String) :
    ∀ (data : List LetterData) (s : DBState),
      (∃ r ∈ s.letters, r.url = u) →
      ∃ r ∈ (data.foldl (upsertLetter now) s).letters, r.url = u := by
  intro data
  induction data with
  | nil => intro s h; exact h
  | cons x xs ih =>
    intro s h
    exact ih (upsertLetter now s x) (upsertLetter_mem_mono now s x u h)

/-- Every payload in a batch has its URL present after folding the upserts. -/
theorem foldl_upsert_mem (now : Nat) :
    ∀ (data : List LetterData) (s : DBState), ∀ d ∈ data,
      ∃ r ∈ (data.foldl (upsertLetter now) s).letters, r.url = d.url := by
  intro data
  induction data with
  | nil => intro s d hd; cases hd
  | cons x xs ih =>
    intro s d hd
    rcases List.mem_cons.mp hd with h | h
    · subst h
      simp only [List.foldl_cons]
      exact foldl_upsert_mono now d.url xs (upsertLetter now s d)
        (upsertLetter_mem_self now s d)
    · simp only [List.foldl_cons]
      exact ih (upsertLetter now s x) d h

/-- The insights table after a store that found a pair match. -/
theorem storeInsightPending_insights_pos (now : Nat) (u q a : String)
    (s : DBState) (hany : s.insights.any (insightKey u (hash_question q)) = true) :
    (storeInsightPending now u q a s).insights
      = updateFirst (insightKey u (hash_question q)) (insightUpdate now a)
          s.insights := by
  simp [storeInsightPending, hany]

/-- The insights table after a store that found no pair match. -/
theorem storeInsightPending_insights_neg (now : Nat) (u q a : String)
    (s : DBState) (hany : s.insights.any (insightKey u (hash_question q)) = false) :
    (storeInsightPending now u q a s).insights
      = s.insights ++
          [{ id := s.nextInsightId, letter_url := u, question := q,
             question_hash := hash_question q, insight := a,
             created_at := now }] := by
  simp [storeInsightPending, hany]

/-- Counting pair-matching insight rows after one store: one if there were
none, otherwise unchanged. -/
theorem countP_storeInsightPending (now : Nat) (u q a : String) (s : DBState) :
    (storeInsightPending now u q a s).insights.countP (insightKey u (hash_question q))
      = if s.insights.countP (insightKey u (hash_question q)) = 0 then 1
        else s.insights.countP (insightKey u (hash_question q)) := by
  by_cases hany : s.insights.any (insightKey u (hash_question q)) = true
  · have hpos : 0 < s.insights.countP (insightKey u (hash_question q)) :=
      List.countP_pos.mpr (List.any_eq_true.mp hany)
    rw [storeInsightPending_insights_pos now u q a s hany,
        countP_updateFirst (p := insightKey u (hash_question q))
          (f := insightUpdate now a) (fun x => rfl),
        if_neg (by omega)]
  · simp only [Bool.not_eq_true] at hany
    have hz : s.insights.countP (insightKey u (hash_question q)) = 0 := by
      rw [List.countP_eq_zero]
      intro i hi hpi
      have : s.insights.any (insightKey u (hash_question q)) = true :=
        List.any_eq_true.mpr ⟨i, hi, hpi⟩
      exact absurd this (by simp [hany])
    rw [storeInsightPending_insights_neg now u q a s hany, List.countP_append,
        hz, if_pos rfl]
    simp [insightKey]

/-- The history ordering relation is total. -/
instance : IsTotal InsightRow createdDesc :=
  ⟨fun a b => Nat.le_total b.created_at a.created_at⟩

/-- The history ordering relation is transitive. -/
instance : IsTrans InsightRow createdDesc :=
  ⟨fun _ _ _ hab hbc => Nat.le_trans hbc hab⟩

/-- The read-path cache filter holds exactly on entries with the right key
that the spec's usability predicate accepts. -/
theorem cacheFilter_eq (key : String) (now : Nat) (e : CacheEntry) :
    cacheFilter key now e = true ↔ e.cache_key = key ∧ usableEntry e now := by
  simp only [cacheFilter, usableEntry, Bool.and_eq_true, beq_iff_eq,
    decide_eq_true_eq]
  tauto

/-- Flattening two hex characters per byte doubles the length. -/
theorem length_flatten_byteHex :
    ∀ ds : List Nat, ((ds.map byteHex).flatten).length = 2 * ds.length := by
  intro ds
  induction ds with
  | nil => rfl
  | cons b bs ih =>
    simp only [List.map_cons, List.flatten_cons, List.length_append, ih,
      byteHex, List.length_cons, List.length_nil, List.length_cons]
    omega

/-- An MD5 digest is sixteen bytes. -/
theorem length_md5Digest (msg : List Nat) : (md5Digest msg).length = 16 := by
  simp [md5Digest, wordLE]

/-- An MD5 hex digest is thirty-two characters. -/
theorem length_md5Hexdigest (msg : List Nat) : (md5Hexdigest msg).length = 32 := by
  show ((md5Digest msg).map byteHex).flatten.length = 32
  rw [length_flatten_byteHex, length_md5Digest]

/-! ### Concrete fixtures for witnesses and counterexamples -/

/-- A stored letter row. -/
def exLetter : Letter :=
  { id := 1, url := "https://www.frbsf.org/economic-letter/2024/x", title := "T",
    date := "2024", content := "C", summary := "S", scraped_at := 0, updated_at := 0 }

/-- A `letters_list` cache entry that expired at time 50 but still carries
`is_valid = true`. -/
def expiredEntry : CacheEntry :=
  { id := 1, cache_key := "letters_list", cache_type := "letters_list",
    last_updated := 0, expires_at := 50, is_valid := true, extra_data := "" }

/-- A database holding one letter whose list cache entry has expired. -/
def staleState : DBState :=
  { letters := [exLetter], insights := [], cache := [expiredEntry],
    nextLetterId := 2, nextInsightId := 1, nextCacheId := 2 }

/-- An oracle whose index-page request fails. -/
def failingOracle : ScrapeOracle :=
  { pageOk := false, links := [], content := fun _ => "" }

/-- The scenario payload `{url: "a", title: "T", date: "2024", content: "C",
summary: "S"}`. -/
def dT : LetterData :=
  { title := "T", url := "a", date := "2024", summary := "S", content := "C" }

/-- The same payload with the title changed. -/
def dT2 : LetterData :=
  { title := "T2", url := "a", date := "2024", summary := "S", content := "C" }

/-- The database after storing `dT` at time 10 and `dT2` at time 20. -/
def storedState : DBState :=
  (store_letters 20 [dT2] false (store_letters 10 [dT] false emptyDB).1).1

/-- A database with a usable `letters_list` entry over an empty letters
table. -/
def validEmptyState : DBState :=
  { letters := [], insights := [],
    cache := [{ id := 1, cache_key := "letters_list",
                cache_type := "letters_list", last_updated := 0,
                expires_at := 1000, is_valid := true, extra_data := "" }],
    nextLetterId := 1, nextInsightId := 1, nextCacheId := 2 }

/-! ### The claims -/

/-- C1 (code bug evidence): the claim — per the spec and the source's own
inline comment "Try to return any cached data even if expired as
fallback" — says a scraper failure falls back to the most recent stored
data even when the cache entry is expired, returning empty only when
nothing is stored. In the code the fallback re-reads through
`get_letters_from_cache`, which applies the expiry/validity filter, so at
time 100, with the only `letters_list` entry expired at 50 and a letter
row stored, the request returns the empty list (and the unchanged state)
despite stored data existing. -/
theorem scrape_fallback_returns_empty_despite_stale_data :
    scrape_economic_letters failingOracle false 100 10 staleState = ([], staleState)
    ∧ staleState.letters ≠ []
    ∧ (∀ e ∈ staleState.cache, e.is_valid = true ∧ e.expires_at ≤ 100) := by
  refine ⟨by decide, by decide, by decide⟩

/-- C2: a cache entry is treated as usable by the read paths
(`get_letters_from_cache`, `is_cache_valid`, `get_cache_stats`) exactly
when its validity flag is true and the current time is strictly before
its expiry; in particular, without a usable `letters_list` entry the
letters read returns the miss value, and the stats count is the count of
usable entries. -/
theorem cache_usability_gates_reads :
    ∀ (s : DBState) (key : String) (now limit offset : Nat),
      (is_cache_valid key now s = true ↔
        ∃ e ∈ s.cache, e.cache_key = key ∧ usableEntry e now)
      ∧ ((¬ ∃ e ∈ s.cache, e.cache_key = "letters_list" ∧ usableEntry e now) →
          get_letters_from_cache now limit offset s = ([], false))
      ∧ ((∃ e ∈ s.cache, e.cache_key = "letters_list" ∧ usableEntry e now) →
          (get_letters_from_cache now limit offset s).1
            = (((s.letters.insertionSort scrapedDesc).drop offset).take limit).map
                letterToData)
      ∧ (get_cache_stats now s).valid_caches
          = (s.cache.filter (fun e => decide (usableEntry e now))).length := by
  intro s key now limit offset
  refine ⟨?_, ?_, ?_, ?_⟩
  · simp [is_cache_valid, List.find?_isSome, cacheFilter_eq]
  · intro hno
    have hfind : s.cache.find? (cacheFilter "letters_list" now) = none := by
      rw [List.find?_eq_none]
      intro x hx hc
      exact hno ⟨x, hx, (cacheFilter_eq "letters_list" now x).mp hc⟩
    simp [get_letters_from_cache, hfind]
  · rintro ⟨e, he, hk, hu⟩
    have hsome : (s.cache.find? (cacheFilter "letters_list" now)).isSome = true :=
      List.find?_isSome.mpr ⟨e, he, (cacheFilter_eq "letters_list" now e).mpr ⟨hk, hu⟩⟩
    rcases Option.isSome_iff_exists.mp hsome with ⟨y, hy⟩
    simp [get_letters_from_cache, hy]
  · show (s.cache.filter (fun e => e.is_valid && decide (now < e.expires_at))).length = _
    exact congrArg List.length (List.filter_congr (fun x hx => by
      cases hv : x.is_valid <;> simp [usableEntry, hv]))

/-- Witness for C2 at the stale fixture: the expired-but-valid entry is not
usable, so the validity check reports false via the characterization, and
the stats count equals the usable-entry count. -/
theorem cache_usability_gates_reads_witness :
    get_letters_from_cache 100 10 0 staleState = ([], false)
    ∧ (get_cache_stats 100 staleState).valid_caches
        = (staleState.cache.filter (fun e => decide (usableEntry e 100))).length :=
  ⟨(cache_usability_gates_reads staleState "letters_list" 100 10 0).2.1 (by decide),
   (cache_usability_gates_reads staleState "letters_list" 100 10 0).2.2.2⟩

/-- C3: questions equal after normalization (lower-casing then stripping
surrounding whitespace) have equal fingerprints, and the fingerprint is
always a 32-character digest string of the normalized question. -/
theorem fingerprint_of_normalized_question :
    (∀ q1 q2 : String, normalizeQuestion q1 = normalizeQuestion q2 →
       hash_question q1 = hash_question q2)
    ∧ (∀ q : String, (hash_question q).length = 32) := by
  constructor
  · intro q1 q2 h
    unfold hash_question
    rw [h]
  · intro q
    unfold hash_question
    exact length_md5Hexdigest _

/-- Witness for C3: two spellings of the same question normalize alike and
so collide to one fingerprint. -/
theorem fingerprint_of_normalized_question_witness :
    normalizeQuestion "  Hello World  " = normalizeQuestion "hello world"
    ∧ hash_question "  Hello World  " = hash_question "hello world" :=
  ⟨by decide,
   fingerprint_of_normalized_question.1 "  Hello World  " "hello world" (by decide)⟩

/-- C5: `store_letters` is atomic and non-throwing: whenever the call
reports failure the durable state is exactly the pre-call state (no
partial writes); an exception in the try block yields the failure report;
and an exception-free run reports success, the durable state being the
committed session. -/
theorem store_letters_atomic_nonthrowing :
    ∀ (now : Nat) (data : List LetterData) (exn : Bool) (s : DBState),
      ((store_letters now data exn s).2 = false →
        (store_letters now data exn s).1 = s)
      ∧ (exn = true → (store_letters now data exn s).2 = false)
      ∧ (exn = false → (store_letters now data exn s).2 = true
          ∧ (store_letters now data exn s).1 = storeLettersPending now data s) := by
  intro now data exn s
  cases exn <;> simp [store_letters]

/-- Witness for C5: a failing batch leaves the empty database unchanged and
a clean run reports success. -/
theorem store_letters_atomic_nonthrowing_witness :
    (store_letters 0 [dT] true emptyDB).1 = emptyDB
    ∧ (store_letters 0 [dT] false emptyDB).2 = true :=
  ⟨(store_letters_atomic_nonthrowing 0 [dT] true emptyDB).1 (by decide),
   ((store_letters_atomic_nonthrowing 0 [dT] false emptyDB).2.2 rfl).1⟩

/-- C4: upserting is idempotent on the URL: storing a payload and then any
payload with the same URL leaves exactly one row for that URL (given the
table's URL-uniqueness); in the spec's scenario, storing `dT` then `dT2`
(same URL, new title) on an empty database leaves a single row with the
latest title and a bumped `updated_at`, and `get_document_page(10, 0)`
returns exactly one record carrying the latest title. -/
theorem upsert_documents_idempotent_on_url :
    ∀ (s : DBState) (d dtwo : LetterData) (n1 n2 : Nat),
      dtwo.url = d.url →
      s.letters.countP (fun l => l.url == d.url) ≤ 1 →
      ((store_letters n2 [dtwo] false
          (store_letters n1 [d] false s).1).1.letters.countP
         (fun l => l.url == d.url) = 1)
      ∧ storedState.letters
          = [{ id := 1, url := "a", title := "T2", date := "2024",
               content := "C", summary := "S", scraped_at := 10,
               updated_at := 20 }]
      ∧ get_letters_from_cache 20 10 0 storedState
          = ([{ title := "T2", url := "a", date := "2024", summary := "S",
                content := "C" }], false) := by
  intro s d dtwo n1 n2 hurl hcount
  refine ⟨?_, by decide, by decide⟩
  have hl1 : (store_letters n1 [d] false s).1.letters
      = (upsertLetter n1 s d).letters := by
    show (storeLettersPending n1 [d] s).letters = _
    unfold storeLettersPending
    rw [refreshLettersCache_letters]
    rfl
  have hc1 : (store_letters n1 [d] false s).1.letters.countP
      (fun l => l.url == d.url) = 1 := by
    rw [hl1, countP_upsertLetter]
    rcases Nat.eq_zero_or_pos (s.letters.countP (fun l => l.url == d.url)) with
      h0 | hpos
    · rw [if_pos h0]
    · rw [if_neg (by omega)]
      omega
  have hl2 : (store_letters n2 [dtwo] false
      (store_letters n1 [d] false s).1).1.letters
      = (upsertLetter n2 (store_letters n1 [d] false s).1 dtwo).letters := by
    show (storeLettersPending n2 [dtwo] (store_letters n1 [d] false s).1).letters = _
    unfold storeLettersPending
    rw [refreshLettersCache_letters]
    rfl
  rw [hl2]
  have h2 := countP_upsertLetter n2 (store_letters n1 [d] false s).1 dtwo
  rw [hurl] at h2
  rw [h2, hc1]
  simp

/-- Witness for C4 at the spec's scenario inputs. -/
theorem upsert_documents_idempotent_on_url_witness :
    ((store_letters 20 [dT2] false
        (store_letters 10 [dT] false emptyDB).1).1.letters.countP
       (fun l => l.url == dT.url) = 1)
    ∧ storedState.letters
        = [{ id := 1, url := "a", title := "T2", date := "2024",
             content := "C", summary := "S", scraped_at := 10,
             updated_at := 20 }]
    ∧ get_letters_from_cache 20 10 0 storedState
        = ([{ title := "T2", url := "a", date := "2024", summary := "S",
              content := "C" }], false) :=
  upsert_documents_idempotent_on_url emptyDB dT dT2 10 20 rfl (by decide)

/-- C6: at most one answer row exists per `(document, fingerprint)` pair —
a matching write overwrites instead of duplicating — and after storing
`a1` then `a2` for fingerprint-equal questions, the lookup (which applies
no expiry check and takes no current time) returns `a2`. -/
theorem answer_overwrite_returns_latest :
    ∀ (s : DBState) (u q1 q2 a1 a2 : String) (t1 t2 : Nat),
      hash_question q2 = hash_question q1 →
      s.insights.countP (insightKey u (hash_question q1)) ≤ 1 →
      ((store_insight t2 u q2 a2 false
          (store_insight t1 u q1 a1 false s).1).1.insights.countP
         (insightKey u (hash_question q1)) = 1)
      ∧ get_cached_insight u q2
          (store_insight t2 u q2 a2 false
            (store_insight t1 u q1 a1 false s).1).1 = some a2 := by
  intro s u q1 q2 a1 a2 t1 t2 hq hcount
  have hc1 : (store_insight t1 u q1 a1 false s).1.insights.countP
      (insightKey u (hash_question q1)) = 1 := by
    show (storeInsightPending t1 u q1 a1 s).insights.countP _ = 1
    rw [countP_storeInsightPending]
    rcases Nat.eq_zero_or_pos (s.insights.countP (insightKey u (hash_question q1)))
      with h0 | hpos
    · rw [if_pos h0]
    · rw [if_neg (by omega)]
      omega
  have hany1 : (store_insight t1 u q1 a1 false s).1.insights.any
      (insightKey u (hash_question q1)) = true :=
    List.any_eq_true.mpr (List.countP_pos.mp (by omega))
  constructor
  · show (storeInsightPending t2 u q2 a2
      (store_insight t1 u q1 a1 false s).1).insights.countP _ = 1
    have h2 := countP_storeInsightPending t2 u q2 a2
      (store_insight t1 u q1 a1 false s).1
    rw [hq] at h2
    rw [h2, hc1]
    simp
  · show ((storeInsightPending t2 u q2 a2
      (store_insight t1 u q1 a1 false s).1).insights.find?
        (insightKey u (hash_question q2))).map (fun i => i.insight) = some a2
    have hpos2 := storeInsightPending_insights_pos t2 u q2 a2
      (store_insight t1 u q1 a1 false s).1 (by rw [hq]; exact hany1)
    rw [hq] at hpos2
    have hsome : ((store_insight t1 u q1 a1 false s).1.insights.find?
        (insightKey u (hash_question q1))).isSome = true :=
      List.find?_isSome.mpr (List.any_eq_true.mp hany1)
    rcases Option.isSome_iff_exists.mp hsome with ⟨x, hx⟩
    rw [hq, hpos2,
      find?_updateFirst (p := insightKey u (hash_question q1))
        (f := insightUpdate t2 a2) (fun y => rfl), hx]
    rfl

/-- Witness for C6: two spellings of one question stored in turn leave one
row and the lookup returns the second answer. -/
theorem answer_overwrite_returns_latest_witness :
    ((store_insight 6 "a" "  what?  " "new" false
        (store_insight 5 "a" "What?" "old" false emptyDB).1).1.insights.countP
       (insightKey "a" (hash_question "What?")) = 1)
    ∧ get_cached_insight "a" "  what?  "
        (store_insight 6 "a" "  what?  " "new" false
          (store_insight 5 "a" "What?" "old" false emptyDB).1).1 = some "new" :=
  answer_overwrite_returns_latest emptyDB "a" "What?" "  what?  " "old" "new" 5 6
    (by decide) (by decide)

/-- C7: `clear_cache` only flips validity flags, and only on the selected
entries: letters and insights rows are untouched for every category
argument; with no (truthy) category every entry is invalidated; with a
category given, the cache becomes the pointwise map that flips the flag
on entries of that category and returns every other entry identical — so
matching entries end invalid while non-matching entries keep all their
fields, validity included; and when `letters_list`-keyed entries carry
the `letters_list` category (as the store path guarantees), clearing that
category makes the subsequent letters read return the miss value while
the rows remain. -/
theorem clear_cache_flags_only :
    ∀ (s : DBState) (ct : Option String),
      (clear_cache ct s).letters = s.letters
      ∧ (clear_cache ct s).insights = s.insights
      ∧ (∀ e ∈ (clear_cache none s).cache, e.is_valid = false)
      ∧ (∀ t : String, t ≠ "" →
           (clear_cache (some t) s).cache
             = s.cache.map (fun e =>
                 if e.cache_type = t then { e with is_valid := false } else e))
      ∧ (∀ t : String, t ≠ "" → ∀ e ∈ (clear_cache (some t) s).cache,
           e.cache_type = t → e.is_valid = false)
      ∧ (∀ t : String, t ≠ "" → ∀ e ∈ s.cache, e.cache_type ≠ t →
           e ∈ (clear_cache (some t) s).cache)
      ∧ ((∀ e ∈ s.cache, e.cache_key = "letters_list" →
            e.cache_type = "letters_list") →
          ∀ now limit offset, get_letters_from_cache now limit offset
            (clear_cache (some "letters_list") s) = ([], false)) := by
  intro s ct
  refine ⟨rfl, rfl, ?_, ?_, ?_, ?_, ?_⟩
  · intro e he
    have he2 : e ∈ s.cache.map (clearEntry none) := he
    rcases List.mem_map.mp he2 with ⟨y, hy, hey⟩
    rw [← hey]
    simp [clearEntry, cacheTypeTruthy]
  · intro t ht
    show s.cache.map (clearEntry (some t)) = _
    apply List.map_congr_left
    intro y hy
    by_cases h : y.cache_type = t
    · simp [clearEntry, cacheTypeTruthy, bne_iff_ne, ht, h]
    · simp [clearEntry, cacheTypeTruthy, bne_iff_ne, ht, h]
  · intro t ht e he hty
    have he2 : e ∈ s.cache.map (clearEntry (some t)) := he
    rcases List.mem_map.mp he2 with ⟨y, hy, hey⟩
    have htr : cacheTypeTruthy (some t) = true := by
      simp [cacheTypeTruthy, bne_iff_ne]
      exact ht
    by_cases hyt : (y.cache_type == t) = true
    · rw [← hey]
      simp [clearEntry, htr, hyt]
    · have hey2 : e = y := by rw [← hey]; simp [clearEntry, htr, hyt]
      rw [hey2] at hty
      exact absurd (beq_iff_eq.mpr hty) hyt
  · intro t ht e he hne
    have hid : clearEntry (some t) e = e := by
      simp [clearEntry, cacheTypeTruthy, bne_iff_ne, ht, beq_iff_eq, hne]
    show e ∈ s.cache.map (clearEntry (some t))
    exact List.mem_map.mpr ⟨e, he, hid⟩
  · intro hcons now limit offset
    have hfind : (clear_cache (some "letters_list") s).cache.find?
        (cacheFilter "letters_list" now) = none := by
      rw [List.find?_eq_none]
      intro x hx hc
      rcases (cacheFilter_eq "letters_list" now x).mp hc with ⟨hk, hv, _⟩
      have hx2 : x ∈ s.cache.map (clearEntry (some "letters_list")) := hx
      rcases List.mem_map.mp hx2 with ⟨y, hy, hxy⟩
      by_cases hyt : (y.cache_type == "letters_list") = true
      · have hinv : x.is_valid = false := by
          rw [← hxy]
          simp [clearEntry, cacheTypeTruthy, hyt]
        rw [hinv] at hv
        cases hv
      · have hxey : x = y := by rw [← hxy]; simp [clearEntry, cacheTypeTruthy, hyt]
        have hy2 := hcons y hy (by rw [← hxey]; exact hk)
        exact hyt (beq_iff_eq.mpr hy2)
    simp [get_letters_from_cache, hfind]

/-- A valid cache entry of a different category (`letter_content`). -/
def otherEntry : CacheEntry :=
  { id := 2, cache_key := "letter_content:x", cache_type := "letter_content",
    last_updated := 0, expires_at := 1000, is_valid := true, extra_data := "" }

/-- A database whose cache holds both a `letters_list` entry and a
`letter_content` entry. -/
def mixedState : DBState :=
  { letters := [exLetter], insights := [],
    cache := [expiredEntry, otherEntry],
    nextLetterId := 2, nextInsightId := 1, nextCacheId := 3 }

/-- Witness for C7: clearing the `letters_list` category of the stored
fixture makes the letters read miss while the letter rows survive, and on
the mixed fixture the `letter_content` entry survives verbatim — with
`is_valid = true` intact. -/
theorem clear_cache_flags_only_witness :
    get_letters_from_cache 20 10 0
        (clear_cache (some "letters_list") storedState) = ([], false)
    ∧ (clear_cache (some "letters_list") storedState).letters
        = storedState.letters
    ∧ otherEntry ∈ (clear_cache (some "letters_list") mixedState).cache :=
  ⟨(clear_cache_flags_only storedState (some "letters_list")).2.2.2.2.2.2
      (by decide) 20 10 0,
   (clear_cache_flags_only storedState (some "letters_list")).1,
   (clear_cache_flags_only mixedState (some "letters_list")).2.2.2.2.2.1
      "letters_list" (by decide) otherEntry (by decide) (by decide)⟩

/-- C8: on a letters cache miss with the index page loading, the
orchestrator builds at most `max(limit, 20)` fresh items from the
collaborator's links, returns exactly the first `limit` of them, and
every built item's URL is persisted in the resulting state. -/
theorem scrape_miss_overfetch_persist_trim :
    ∀ (o : ScrapeOracle) (now limit : Nat) (s : DBState),
      o.pageOk = true →
      (get_letters_from_cache now limit 0 s).1 = [] →
      (scrape_economic_letters o false now limit s).1
          = (buildLetters o (max limit 20)).take limit
      ∧ (buildLetters o (max limit 20)).length ≤ max limit 20
      ∧ (∀ d ∈ buildLetters o (max limit 20),
          ∃ r ∈ (scrape_economic_letters o false now limit s).2.letters,
            r.url = d.url) := by
  intro o now limit s hpage hmiss
  have hres : scrape_economic_letters o false now limit s
      = ((buildLetters o (max limit 20)).take limit,
         if buildLetters o (max limit 20) = [] then s
         else storeLettersPending now (buildLetters o (max limit 20)) s) := by
    unfold scrape_economic_letters
    rw [hmiss, hpage]
    by_cases hb : buildLetters o (max limit 20) = []
    · simp [hb, store_letters]
    · simp [hb, store_letters]
  refine ⟨by rw [hres], ?_, ?_⟩
  · calc (buildLetters o (max limit 20)).length
        ≤ (o.links.take (max limit 20)).length :=
          List.length_filterMap_le _ _
      _ ≤ max limit 20 := by
          rw [List.length_take]
          exact min_le_left _ _
  · intro d hd
    rw [hres]
    show ∃ r ∈ (if buildLetters o (max limit 20) = [] then s
        else storeLettersPending now (buildLetters o (max limit 20)) s).letters,
      r.url = d.url
    by_cases hb : buildLetters o (max limit 20) = []
    · rw [hb] at hd
      cases hd
    · rw [if_neg hb]
      show ∃ r ∈ (refreshLettersCache now (buildLetters o (max limit 20)).length
          ((buildLetters o (max limit 20)).foldl (upsertLetter now) s)).letters,
        r.url = d.url
      rw [refreshLettersCache_letters]
      exact foldl_upsert_mem now (buildLetters o (max limit 20)) s d hd

/-- An oracle with three article links, one of which has an empty title. -/
def pageOracle : ScrapeOracle :=
  { pageOk := true,
    links := [("/economic-letter/2024/one", "One"),
              ("https://x/economic-letter/2023/two", "Two"),
              ("/economic-letter/2022/skip", "")],
    content := fun _ => "body" }

/-- Witness for C8 on a concrete miss: requesting one letter over-fetches,
persists both kept items and returns only the first. -/
theorem scrape_miss_overfetch_persist_trim_witness :
    (scrape_economic_letters pageOracle false 0 1 emptyDB).1
        = (buildLetters pageOracle (max 1 20)).take 1
    ∧ (buildLetters pageOracle (max 1 20)).length ≤ max 1 20
    ∧ (∀ d ∈ buildLetters pageOracle (max 1 20),
        ∃ r ∈ (scrape_economic_letters pageOracle false 0 1 emptyDB).2.letters,
          r.url = d.url) :=
  scrape_miss_overfetch_persist_trim pageOracle 0 1 emptyDB rfl (by decide)

/-- C9: overwriting the answer for an existing `(document, fingerprint)`
pair resets that row's `created_at` to the write time (and its text to the
new answer), and the question history is ordered by `created_at`
descending — so history order follows the latest write, not the original
creation. -/
theorem overwrite_resets_creation_and_history_orders_by_it :
    (∀ (s : DBState) (u q txt : String) (now : Nat),
       s.insights.any (insightKey u (hash_question q)) = true →
       ∃ i, ((store_insight now u q txt false s).1.insights.find?
               (insightKey u (hash_question q))) = some i
            ∧ i.created_at = now ∧ i.insight = txt)
    ∧ (∀ (s : DBState) (u : String),
         List.Sorted createdDesc (get_question_history u s)
         ∧ (get_question_history u s).Perm
             (s.insights.filter (fun i => i.letter_url == u))) := by
  constructor
  · intro s u q txt now hany
    have hsome : (s.insights.find? (insightKey u (hash_question q))).isSome = true :=
      List.find?_isSome.mpr (List.any_eq_true.mp hany)
    rcases Option.isSome_iff_exists.mp hsome with ⟨x, hx⟩
    refine ⟨insightUpdate now txt x, ?_, rfl, rfl⟩
    show ((storeInsightPending now u q txt s).insights.find?
      (insightKey u (hash_question q))) = _
    rw [storeInsightPending_insights_pos now u q txt s hany,
        find?_updateFirst (p := insightKey u (hash_question q))
          (f := insightUpdate now txt) (fun y => rfl), hx]
    rfl
  · intro s u
    exact ⟨List.sorted_insertionSort createdDesc _,
           List.perm_insertionSort createdDesc _⟩

/-- A database seeded with one stored answer at time 5. -/
def insightSeedState : DBState :=
  (store_insight 5 "a" "What?" "old" false emptyDB).1

/-- Witness for C9: re-answering the seeded question at time 9 leaves a row
carrying `created_at = 9`, and the history is sorted by `created_at`. -/
theorem overwrite_resets_creation_history_witness :
    (∃ i, ((store_insight 9 "a" "What?" "new" false insightSeedState).1.insights.find?
            (insightKey "a" (hash_question "What?"))) = some i
          ∧ i.created_at = 9 ∧ i.insight = "new")
    ∧ (List.Sorted createdDesc (get_question_history "a" insightSeedState)
       ∧ (get_question_history "a" insightSeedState).Perm
           (insightSeedState.insights.filter (fun i => i.letter_url == "a"))) :=
  ⟨overwrite_resets_creation_and_history_orders_by_it.1 insightSeedState
      "a" "What?" "new" 9 (by decide),
   overwrite_resets_creation_and_history_orders_by_it.2 insightSeedState "a"⟩

/-- C10: whenever no usable `letters_list` entry exists the letters read
returns `([], false)` no matter how many letter rows are stored, and a
usable cache over an empty letters table returns the very same value — so
the miss signal (empty list, `has_more = false`) cannot be told apart
from an empty but fresh cache. -/
theorem cache_miss_signal_indistinguishable :
    ∀ (s : DBState) (now limit offset : Nat),
      ((∀ e ∈ s.cache, e.cache_key = "letters_list" → ¬ usableEntry e now) →
        get_letters_from_cache now limit offset s = ([], false))
      ∧ (s.letters = [] →
        get_letters_from_cache now limit offset s = ([], false)) := by
  intro s now limit offset
  constructor
  · intro hno
    have hfind : s.cache.find? (cacheFilter "letters_list" now) = none := by
      rw [List.find?_eq_none]
      intro x hx hc
      rcases (cacheFilter_eq "letters_list" now x).mp hc with ⟨hk, hu⟩
      exact hno x hx hk hu
    simp [get_letters_from_cache, hfind]
  · intro hemp
    cases hfind : s.cache.find? (cacheFilter "letters_list" now) with
    | none => simp [get_letters_from_cache, hfind]
    | some e => simp [get_letters_from_cache, hfind, hemp, List.insertionSort]

/-- Witness for C10: the stale fixture (letters stored, entry expired) and
the fresh-but-empty fixture produce the identical miss value. -/
theorem cache_miss_signal_indistinguishable_witness :
    get_letters_from_cache 80 5 0 staleState = ([], false)
    ∧ get_letters_from_cache 80 5 0 validEmptyState = ([], false) :=
  ⟨(cache_miss_signal_indistinguishable staleState 80 5 0).1 (by decide),
   (cache_miss_signal_indistinguishable validEmptyState 80 5 0).2 rfl⟩
